import Mathlib

/-!
Verification of the admin content-lifecycle layer of the `website-kerdik`
repository: message archive/restore lifecycle, admin auth endpoints, the
image crop/export pipeline of the admin UI, HTML escaping, and the shared
HTTP response handler.  Frontend TypeScript under `src/frontend` and
`src/unnamed` is embedded directly; the Rust backend is not part of the
source tree, so server-side behaviour (session ops, lifecycle transactions,
endpoint dispatch) is modelled from the specification and marked as such.
-/

/-! ## Data model (from `src/frontend/src/lib/api.ts` interfaces and the
`messages` / `messages_archive` migrations) -/

/-- An active contact message (interface `Message` in api.ts; `messages`
table).  Timestamps are modelled as natural numbers. -/
structure Msg where
  id : Nat
  name : String
  email : String
  phone : Option String
  subject : Option String
  message : String
  created_at : Nat
deriving DecidableEq, Repr

/-- An archived message (interface `ArchivedMessage` in api.ts;
`messages_archive` table from the 2026-01-25 migration): archive-local `id`,
`original_id` of the former active row, all message fields copied, and
`archived_at`. -/
structure ArchivedMsg where
  id : Nat
  original_id : Nat
  name : String
  email : String
  phone : Option String
  subject : Option String
  message : String
  created_at : Nat
  archived_at : Nat
deriving DecidableEq, Repr

/-- The user-visible payload of a message: every field except the storage
identities and `archived_at`. -/
structure MsgPayload where
  name : String
  email : String
  phone : Option String
  subject : Option String
  message : String
  created_at : Nat
deriving DecidableEq, Repr

def Msg.payload (m : Msg) : MsgPayload :=
  ⟨m.name, m.email, m.phone, m.subject, m.message, m.created_at⟩

def ArchivedMsg.payload (a : ArchivedMsg) : MsgPayload :=
  ⟨a.name, a.email, a.phone, a.subject, a.message, a.created_at⟩

/-- Combined storage state of the two message tables, plus the archive
table's AUTO_INCREMENT counter. -/
structure LifecycleState where
  active : List Msg
  archive : List ArchivedMsg
  nextArchiveId : Nat
deriving DecidableEq, Repr

def activeIds (st : LifecycleState) : List Nat := st.active.map Msg.id

def archiveOrigIds (st : LifecycleState) : List Nat :=
  st.archive.map ArchivedMsg.original_id

def archiveIds (st : LifecycleState) : List Nat :=
  st.archive.map ArchivedMsg.id

/-- The archive row written for active message `m` (fields copied verbatim,
`original_id` set to the former active id, `archived_at` set to the archive
time). -/
def archiveRow (m : Msg) (aid t : Nat) : ArchivedMsg :=
  ⟨aid, m.id, m.name, m.email, m.phone, m.subject, m.message, m.created_at, t⟩

/-- The active row reinserted by restore.  Modelled from the spec: the spec
leaves open whether the reinstated record reuses `original_id` or receives a
fresh key (design note §9); this model resolves the open question by reusing
`original_id`, which keeps the provenance key stable across archive/restore
cycles. -/
def restoredMsg (a : ArchivedMsg) : Msg :=
  ⟨a.original_id, a.name, a.email, a.phone, a.subject, a.message, a.created_at⟩

/-- Modelled from the spec: `archive(active_id)` — the backend transaction is
absent from the source tree, so this follows §4.2: within one atomic
transaction, read the active row by id (`none` = NotFound if absent), insert
a copy into the archive store with `original_id = active_id` and
`archived_at = now`, delete the active row.  `none` leaves the state
untouched. -/
def archiveStep (st : LifecycleState) (id t : Nat) : Option LifecycleState :=
  match st.active.find? (fun m => m.id == id) with
  | none => none
  | some m =>
      some ⟨st.active.filter (fun x => x.id != id),
            st.archive ++ [archiveRow m st.nextArchiveId t],
            st.nextArchiveId + 1⟩

/-- Modelled from the spec: `restore(original_id)` — backend absent; per
§4.2, within one transaction, look up the archive row by `original_id` (not
by its archive-local id), reinsert into the active store with the original
field values, delete the archive row. -/
def restoreStep (st : LifecycleState) (oid : Nat) : Option LifecycleState :=
  match st.archive.find? (fun a => a.original_id == oid) with
  | none => none
  | some a =>
      some ⟨st.active ++ [restoredMsg a],
            st.archive.filter (fun x => x.original_id != oid),
            st.nextArchiveId⟩

/-- Modelled from the spec: `permanentDelete(archive_id)` — backend absent;
per §4.2, hard delete from the archive store only, keyed by the
archive-local id. -/
def permDeleteStep (st : LifecycleState) (aid : Nat) : Option LifecycleState :=
  if st.archive.any (fun a => a.id == aid) then
    some ⟨st.active, st.archive.filter (fun a => a.id != aid), st.nextArchiveId⟩
  else none

/-- The three admin lifecycle actions. -/
inductive LifecycleOp where
  | archive (id t : Nat)
  | restore (oid : Nat)
  | permDelete (aid : Nat)
deriving DecidableEq, Repr

/-- Run one lifecycle action; a NotFound failure performs no storage
mutation. -/
def applyOp (op : LifecycleOp) (st : LifecycleState) : LifecycleState :=
  match op with
  | .archive id t => (archiveStep st id t).getD st
  | .restore oid => (restoreStep st oid).getD st
  | .permDelete aid => (permDeleteStep st aid).getD st

def runOps : List LifecycleOp → LifecycleState → LifecycleState
  | [], st => st
  | op :: rest, st => runOps rest (applyOp op st)

/-- Storage invariant: active ids are distinct, archive provenance keys are
distinct, archive-local ids are distinct and below the AUTO_INCREMENT
counter, and no logical message id is present in both tables at once. -/
def LifecycleInv (st : LifecycleState) : Prop :=
  (activeIds st).Nodup ∧ (archiveOrigIds st).Nodup ∧ (archiveIds st).Nodup ∧
  (∀ i ∈ activeIds st, i ∉ archiveOrigIds st) ∧
  (∀ a ∈ st.archive, a.id < st.nextArchiveId)

instance (st : LifecycleState) : Decidable (LifecycleInv st) := by
  unfold LifecycleInv; infer_instance

/-! ## HTTP response handling (from `src/frontend/src/lib/api.ts`) -/

/-- A `fetch` response as observed by the client code: `ok`, `status`,
`statusText`, and the body text (what `response.text()` yields). -/
structure HttpResponse where
  ok : Bool
  status : Nat
  statusText : String
  body : String
deriving DecidableEq, Repr

/-- Rejections a client promise can end in: `ApiError(status, message)`
thrown by `handleResponse`, or the exception `JSON.parse` raises on an
unparsable body. -/
inductive FetchError where
  | api (status : Nat) (message : String)
  | badJson
deriving DecidableEq, Repr

/-- The shared response handler `handleResponse` (api.ts lines 56-66):
non-ok responses throw `ApiError` with the response status — 401 with the
fixed message "Unauthorized", otherwise with the body text or, when that is
empty, the status text; ok responses yield the parsed body, or an empty
object when the body is empty.  `JSON.parse` is abstracted as the `parse`
argument (`none` = the parse throws) and the empty object literal as
`emptyObj`. -/
def handleResponse {T : Type} (emptyObj : T) (parse : String → Option T)
    (r : HttpResponse) : Except FetchError T :=
  if r.ok then
    if r.body = "" then .ok emptyObj
    else
      match parse r.body with
      | some v => .ok v
      | none => .error .badJson
  else
    if r.status = 401 then .error (.api r.status "Unauthorized")
    else .error (.api r.status (if r.body = "" then r.statusText else r.body))

/-- Whether an outcome is a rejection with an `ApiError`. -/
def throwsApiError {T : Type} : Except FetchError T → Bool
  | .error (.api _ _) => true
  | _ => false

/-- The status carried by an `ApiError` rejection, if any. -/
def apiErrorStatus {T : Type} : Except FetchError T → Option Nat
  | .error (.api s _) => some s
  | _ => none

/-- `api.admin.checkAuth` (api.ts lines 83-86): fetches `/admin/check` and
returns `res.ok` — the response body is never read. -/
def checkAuthClient (r : HttpResponse) : Bool := r.ok

/-- `Boolean(await resp.json())` for the boolean bodies of `/admin/check`. -/
def jsonBodyBool (s : String) : Bool := s = "true"

/-- The authentication flag computed by `checkAdminAuth`
(auth-check.ts line 7): `resp.ok ? Boolean(await resp.json()) : false`. -/
def checkAdminAuthFlag (r : HttpResponse) : Bool :=
  if r.ok then jsonBodyBool r.body else false

/-- Modelled from the spec: the backend handler of `GET /admin/check` is not
in the source tree; per §6 it answers `true`/`false` as a boolean body with
a 200 status, never an error status for "not authenticated". -/
def checkEndpointResponse (authed : Bool) : HttpResponse :=
  ⟨true, 200, "OK", if authed then "true" else "false"⟩

/-- `api.admin.logout` (api.ts lines 79-81): fires `POST /admin/logout` and
resolves without inspecting the response — no `handleResponse`, no `res.ok`
check — so it succeeds for every response status. -/
def logoutClient (_r : HttpResponse) : Except FetchError Unit := .ok ()

/-- A stored admin session (`admin_sessions` table / spec §3). -/
structure AdminSession where
  token : String
  created_at : Nat
  expires_at : Nat
  ip_address : Option String
deriving DecidableEq, Repr

/-- Modelled from the spec: `logout(token)` — the backend handler is not in
the source tree; per §4.1 it deletes the session row if present and succeeds
(HTTP 200) even if the token is already invalid or absent. -/
def logoutOp (store : List AdminSession) (tok : String) :
    List AdminSession × Nat :=
  (store.filter (fun s => s.token != tok), 200)

/-! ## Admin endpoint dispatch for messages (spec §4.2 and §6; the client
request constructors are from api.ts) -/

/-- The admin message endpoints that the api.ts client functions target. -/
inductive AdminApiRequest where
  | deleteMessage (id : Nat)
  | archiveAction (id : Nat)
  | restoreAction (oid : Nat)
  | permanentDelete (aid : Nat)
deriving DecidableEq, Repr

/-- `api.admin.deleteMessage` (api.ts lines 98-105) issues
`DELETE /admin/api/messages/:id`. -/
def clientDeleteMessage (id : Nat) : AdminApiRequest := .deleteMessage id

/-- `api.admin.archiveMessage` (api.ts lines 107-114) issues
`POST /admin/api/messages/:id/archive` with action "archive". -/
def clientArchiveMessage (id : Nat) : AdminApiRequest := .archiveAction id

/-- `api.admin.restoreMessage` (api.ts lines 116-123) issues
`POST /admin/api/messages/:id/archive` with action "restore". -/
def clientRestoreMessage (oid : Nat) : AdminApiRequest := .restoreAction oid

/-- `api.admin.permanentlyDeleteArchivedMessage` (api.ts lines 135-140)
issues `DELETE /admin/api/archived/messages/:id`. -/
def clientPermanentlyDeleteArchivedMessage (aid : Nat) : AdminApiRequest :=
  .permanentDelete aid

/-- Modelled from the spec: backend dispatch of the admin message endpoints
is not in the source tree; per §4.2 and §6, `DELETE messages/:id` is an
alias for archive (the deliberately repurposed legacy delete verb), the
archive action archives, the restore action restores, and
`DELETE archived/messages/:id` permanently deletes. -/
def serverDispatch (t : Nat) : AdminApiRequest → LifecycleState → LifecycleState
  | .deleteMessage id, st => applyOp (.archive id t) st
  | .archiveAction id, st => applyOp (.archive id t) st
  | .restoreAction oid, st => applyOp (.restore oid) st
  | .permanentDelete aid, st => applyOp (.permDelete aid) st

/-! ## HTML escaping (`escapeHtml` in the admin utils module,
`src/unnamed/part_000` lines 3-11) -/

/-- One pass of `String.prototype.replace` with a global single-character
pattern: every occurrence of `c` becomes the character list `r`. -/
def replAll (c : Char) (r : List Char) (s : List Char) : List Char :=
  s.flatMap (fun x => if x = c then r else [x])

/-- The five sequential replacement passes of `escapeHtml`, in source order:
`&` → `&amp;`, `<` → `&lt;`, `>` → `&gt;`, `"` → `&quot;`, `'` → `&#039;`. -/
def escapeHtmlChars (s : List Char) : List Char :=
  replAll '\'' "&#039;".toList
    (replAll '"' "&quot;".toList
      (replAll '>' "&gt;".toList
        (replAll '<' "&lt;".toList
          (replAll '&' "&amp;".toList s))))

/-- `escapeHtml(text?: string | null)`: `null`, `undefined` and the empty
string are all falsy, so `if (!text) return ""` maps them to `""`; any other
string goes through the five replacement passes. -/
def escapeHtml (text : Option String) : String :=
  match text with
  | none => ""
  | some s => if s = "" then "" else ⟨escapeHtmlChars s.data⟩

/-- The per-character entity map the five passes amount to. -/
def htmlEntity (c : Char) : List Char :=
  if c = '&' then "&amp;".toList
  else if c = '<' then "&lt;".toList
  else if c = '>' then "&gt;".toList
  else if c = '"' then "&quot;".toList
  else if c = '\'' then "&#039;".toList
  else [c]

/-! ## Image crop/export pipeline (`applyCrop` in
`src/frontend/src/lib/admin/offers.ts` lines 342-381 and the blog admin
controller `src/unnamed/part_002` lines 301-340) -/

/-- Pixel size of the canvas `OffersPageController.applyCrop` asks the
cropper selection to export: `selection.$toCanvas({width: 1920,
height: 1080})` — a fixed size, taking no account of the selection's own
width and height. -/
def offersApplyCropCanvas (_selW _selH : Nat) : Nat × Nat := (1920, 1080)

/-- Pixel size of the canvas `BlogPageController.applyCrop` exports; the
same fixed `{width: 1920, height: 1080}` call. -/
def blogApplyCropCanvas (_selW _selH : Nat) : Nat × Nat := (1920, 1080)

/-- Stated from the spec's words for comparison (§4.3 resize policy): if
`max(width, height) > 1920`, scale down preserving aspect ratio so the
longer edge equals 1920; otherwise keep the original pixel dimensions. -/
def specResizePolicy (w h : Nat) : Nat × Nat :=
  if 1920 < max w h then
    if h ≤ w then (1920, h * 1920 / w) else (w * 1920 / h, 1920)
  else (w, h)

/-- Arguments of a `canvas.toBlob(cb, type, quality)` call. -/
structure BlobExport where
  mime : String
  quality : ℚ
deriving DecidableEq, Repr

/-- `croppedCanvas.toBlob(..., 'image/jpeg', 0.95)` in
`OffersPageController.applyCrop` (offers.ts line 376). -/
def offersCropBlobExport : BlobExport := ⟨"image/jpeg", 95 / 100⟩

/-- `croppedCanvas.toBlob(..., 'image/jpeg', 0.95)` in
`BlogPageController.applyCrop` (part_002 line 335). -/
def blogCropBlobExport : BlobExport := ⟨"image/jpeg", 95 / 100⟩

/-! ## Offer form bodies (`saveOffer` in offers.ts lines 226-260 and
`api.admin.updateOffer` in api.ts lines 173-205) -/

/-- A value appended to a `FormData`: a text field, the cropped JPEG blob,
or a raw uploaded file. -/
inductive FormVal where
  | text (s : String)
  | croppedBlob
  | uploadedFile
deriving DecidableEq, Repr

/-- The form state `OffersPageController.getFormData` collects (offers.ts
lines 210-224); absent inputs read as `""`, and `hasImageFile` is whether
`offerImage.files[0]` exists. -/
structure OfferFormData where
  id : String
  title : String
  slug : String
  description : String
  link : String
  latitude : String
  longitude : String
  hasImageFile : Bool
deriving DecidableEq, Repr

/-- The `FormData` entries `OffersPageController.saveOffer` builds (offers.ts
lines 226-252): title and slug always; description, link, latitude and
longitude only when truthy (non-empty); then — identically for the update and
create branches — the cropped blob as `image` if one exists, else the raw
file if one was chosen, else no image entry at all.  No other entry is ever
appended. -/
def saveOfferBody (fd : OfferFormData) (croppedImageBlob : Bool) :
    List (String × FormVal) :=
  [("title", .text fd.title), ("slug", .text fd.slug)]
  ++ (if fd.description ≠ "" then [("description", FormVal.text fd.description)] else [])
  ++ (if fd.link ≠ "" then [("link", FormVal.text fd.link)] else [])
  ++ (if fd.latitude ≠ "" then [("latitude", FormVal.text fd.latitude)] else [])
  ++ (if fd.longitude ≠ "" then [("longitude", FormVal.text fd.longitude)] else [])
  ++ (if croppedImageBlob then [("image", FormVal.croppedBlob)]
      else if fd.hasImageFile then [("image", FormVal.uploadedFile)] else [])

/-- The plain-object argument `api.admin.updateOffer` accepts when not handed
a ready `FormData`. -/
structure UpdateOfferData where
  title : String
  slug : String
  description : Option String
  link : Option String
  keep_existing_image : Bool
  hasImageFile : Bool
deriving DecidableEq, Repr

/-- The `FormData` `api.admin.updateOffer` builds from a plain object
(api.ts lines 179-197): title and slug; description and link when neither
`undefined` nor `null`; always a `keep_existing_image` entry serialised as
the string "true" or "false"; and the image file when provided.  When the
caller passes a `FormData` instead — as `saveOffer` does — the body is used
unchanged and this construction never runs. -/
def updateOfferPlainBody (d : UpdateOfferData) : List (String × FormVal) :=
  [("title", .text d.title), ("slug", .text d.slug)]
  ++ (match d.description with
      | some s => [("description", FormVal.text s)]
      | none => [])
  ++ (match d.link with
      | some s => [("link", FormVal.text s)]
      | none => [])
  ++ [("keep_existing_image",
       FormVal.text (if d.keep_existing_image then "true" else "false"))]
  ++ (if d.hasImageFile then [("image", FormVal.uploadedFile)] else [])

/-- The field names of a form body. -/
def formKeys (body : List (String × FormVal)) : List String :=
  body.map Prod.fst

/-! ## Admin archived-message card (messages.ts lines 364-450) -/

/-- One piece of an HTML template literal: a literal chunk or an
interpolated numeric id. -/
inductive Seg where
  | lit (s : String)
  | num (n : Nat)
deriving DecidableEq, Repr

/-- JavaScript `a || b` on an optional string: the default wins when the
value is absent or empty (falsy). -/
def jsOrStr (o : Option String) (d : String) : String :=
  match o with
  | some s => if s = "" then d else s
  | none => d

def archPhoneLit0 : String :=
  "\n                <a href=\"tel:"

def archPhoneLit1 : String :=
  "\" class=\"text-gray-600 font-bold hover:text-gray-900 transition-colors flex items-center gap-2\">\n                  <svg class=\"h-4 w-4\" fill=\"none\" stroke=\"currentColor\" viewBox=\"0 0 24 24\">\n                    <path stroke-linecap=\"round\" stroke-linejoin=\"round\" stroke-width=\"2\" d=\"M3 5a2 2 0 012-2h3.28a1 1 0 01.948.684l1.498 4.493a1 1 0 01-.502 1.21l-2.257 1.13a11.042 11.042 0 005.516 5.516l1.13-2.257a1 1 0 011.21-.502l4.493 1.498a1 1 0 01.684.949V19a2 2 0 01-2 2h-1C9.716 21 3 14.284 3 6V5z\"/>\n                  </svg>\n                  "

def archPhoneLit2 : String :=
  "\n                </a>"

/-- The conditional phone block of the archived card: present (with the
escaped phone rendered twice) only when `msg.phone` is truthy. -/
def archPhoneBlock (phone : Option String) : List Seg :=
  match phone with
  | some p =>
      if p = "" then [Seg.lit ""]
      else
        [Seg.lit archPhoneLit0, Seg.lit (escapeHtml (some p)),
         Seg.lit archPhoneLit1, Seg.lit (escapeHtml (some p)),
         Seg.lit archPhoneLit2]
  | none => [Seg.lit ""]

def archCardLit0 : String :=
  "\n      <div class=\"bg-white p-6 md:p-8 rounded-2xl border border-gray-100 shadow-sm transition-all duration-300 hover:shadow-xl hover:border-gray-300\">\n        <div class=\"flex flex-col lg:flex-row justify-between lg:items-start gap-6 mb-6\">\n          <div class=\"space-y-4 min-w-0 flex-1\">\n            <div class=\"flex flex-wrap items-center gap-3\">\n              <span class=\"px-3 py-1 bg-gray-100 text-gray-600 text-[10px] font-black uppercase tracking-widest rounded-full border border-gray-200\">Archivované</span>\n              <span class=\"flex items-center gap-1.5 text-xs text-gray-400 font-bold uppercase tracking-wider\">\n                <svg class=\"h-4 w-4\" fill=\"none\" stroke=\"currentColor\" viewBox=\"0 0 24 24\">\n                  <path stroke-linecap=\"round\" stroke-linejoin=\"round\" stroke-width=\"2\" d=\"M12 8v4l3 3m6-3a9 9 0 11-18 0 9 9 0 0118 0z\"/>\n                </svg>\n                Archivované: "

def archCardLit1 : String :=
  "\n              </span>\n            </div>\n            <h3 class=\"text-xl md:text-2xl font-black text-gray-900 tracking-tight break-words\">"

def archCardLit2 : String :=
  "</h3>\n            <div class=\"flex flex-wrap items-center gap-4 text-xs md:text-sm\">\n              <div class=\"flex items-center gap-2 font-black text-gray-900 bg-gray-50 px-3 py-1.5 rounded-lg border border-gray-100\">\n                <svg class=\"w-3 h-3\" fill=\"none\" stroke=\"currentColor\" viewBox=\"0 0 24 24\">\n                  <path stroke-linecap=\"round\" stroke-linejoin=\"round\" stroke-width=\"2\" d=\"M16 7a4 4 0 11-8 0 4 4 0 018 0zM12 14a7 7 0 00-7 7h14a7 7 0 00-7-7z\"/>\n                </svg>\n                "

def archCardLit3 : String :=
  "\n              </div>\n              <a href=\"mailto:"

def archCardLit4 : String :=
  "\" class=\"text-gray-600 font-bold hover:text-gray-900 transition-colors break-all flex items-center gap-2\">\n                <svg class=\"h-4 w-4\" fill=\"none\" stroke=\"currentColor\" viewBox=\"0 0 24 24\">\n                  <path stroke-linecap=\"round\" stroke-linejoin=\"round\" stroke-width=\"2\" d=\"M3 8l7.89 5.26a2 2 0 002.22 0L21 8M5 19h14a2 2 0 002-2V7a2 2 0 00-2-2H5a2 2 0 00-2 2v12a2 2 0 002 2z\"/>\n                </svg>\n                "

def archCardLit5 : String :=
  "\n              </a>\n              "

def archCardLit6 : String :=
  "\n            </div>\n            <div class=\"flex items-center gap-4 text-xs text-gray-500\">\n              <span class=\"flex items-center gap-1.5\">\n                <svg class=\"h-3 w-3\" fill=\"none\" stroke=\"currentColor\" viewBox=\"0 0 24 24\">\n                  <path stroke-linecap=\"round\" stroke-linejoin=\"round\" stroke-width=\"2\" d=\"M8 7V3m8 4V3m-9 8h10M5 21h14a2 2 0 002-2V7a2 2 0 00-2-2H5a2 2 0 00-2 2v12a2 2 0 002 2z\"/>\n                </svg>\n                Vytvorené: "

def archCardLit7 : String :=
  "\n              </span>\n            </div>\n          </div>\n          <div class=\"flex shrink-0 gap-3\">\n            <button\n              onclick=\"window.restoreMessage && window.restoreMessage("

def archCardLit8 : String :=
  ")\"\n              class=\"px-5 py-2.5 bg-gray-50 border border-gray-200 text-gray-600 hover:bg-green-50 hover:text-green-600 hover:border-green-200 transition-all duration-300 flex items-center justify-center gap-2 text-[10px] font-black uppercase tracking-widest rounded-xl group\"\n              title=\"Obnoviť správu\"\n            >\n              <svg class=\"h-4 w-4 group-hover:scale-110 transition-transform\" fill=\"none\" stroke=\"currentColor\" viewBox=\"0 0 24 24\">\n                <path stroke-linecap=\"round\" stroke-linejoin=\"round\" stroke-width=\"2\" d=\"M3 10h10a8 8 0 018 8v2M3 10l6 6m-6-6l6-6\"/>\n              </svg>\n              Obnoviť\n            </button>\n            <button\n              onclick=\"window.permanentlyDeleteArchivedMessage && window.permanentlyDeleteArchivedMessage("

def archCardLit9 : String :=
  ")\"\n              class=\"px-5 py-2.5 bg-gray-50 border border-gray-200 text-gray-400 hover:bg-red-50 hover:text-red-500 hover:border-red-200 transition-all duration-300 flex items-center justify-center gap-2 text-[10px] font-black uppercase tracking-widest rounded-xl\"\n              title=\"Zmazať natrvalo\"\n            >\n              <svg class=\"h-4 w-4\" fill=\"none\" stroke=\"currentColor\" viewBox=\"0 0 24 24\">\n                <path stroke-linecap=\"round\" stroke-linejoin=\"round\" stroke-width=\"2\" d=\"M19 7l-.867 12.142A2 2 0 0116.138 21H7.862a2 2 0 01-1.995-1.858L5 7m5 4v6m4-6v6m1-10V4a1 1 0 00-1-1h-4a1 1 0 00-1 1v3M4 7h16\"/>\n              </svg>\n              Zmazať\n            </button>\n          </div>\n        </div>\n        <div class=\"bg-gray-50 p-6 rounded-xl border-l-4 border-gray-300 text-gray-700 whitespace-pre-wrap break-words leading-relaxed text-sm font-medium italic\">\n          "

def archCardLit10 : String :=
  "\n        </div>\n      </div>\n    "

/-- `MessagesPageController.createArchivedMessageCard`: the template
literal as its sequence of segments.  Date formatting through date-fns is
abstracted as `fmt`; the interpolated expressions and the escaping applied
to each field follow the source exactly.  The restore button passes
`msg.original_id` and the permanent-delete button passes the archive-local
`msg.id`. -/
def createArchivedMessageCard (fmt : Nat → String) (msg : ArchivedMsg) :
    List Seg :=
  [Seg.lit archCardLit0,
   Seg.lit (fmt msg.archived_at),
   Seg.lit archCardLit1,
   Seg.lit (escapeHtml (some (jsOrStr msg.subject "(Bez predmetu)"))),
   Seg.lit archCardLit2,
   Seg.lit (escapeHtml (some msg.name)),
   Seg.lit archCardLit3,
   Seg.lit (escapeHtml (some msg.email)),
   Seg.lit archCardLit4,
   Seg.lit (escapeHtml (some msg.email)),
   Seg.lit archCardLit5]
  ++ archPhoneBlock msg.phone ++
  [Seg.lit archCardLit6,
   Seg.lit (fmt msg.created_at),
   Seg.lit archCardLit7,
   Seg.num msg.original_id,
   Seg.lit archCardLit8,
   Seg.num msg.id,
   Seg.lit archCardLit9,
   Seg.lit (escapeHtml (some msg.message)),
   Seg.lit archCardLit10]

/-- The (literal, interpolated number) pairs of a segment list: each
numeric interpolation together with the literal chunk immediately before
it. -/
def pairedArgs : List Seg → List (String × Nat)
  | Seg.lit s :: Seg.num n :: rest => (s, n) :: pairedArgs rest
  | _ :: rest => pairedArgs rest
  | [] => []

/-! ## Helper lemmas -/

theorem mem_replAll {x c : Char} {r s : List Char} (h : x ∈ replAll c r s) :
    x ∈ r ∨ (x ∈ s ∧ x ≠ c) := by
  unfold replAll at h
  rw [List.mem_flatMap] at h
  obtain ⟨a, ha, hx⟩ := h
  by_cases hac : a = c
  · subst hac
    rw [if_pos rfl] at hx
    exact Or.inl hx
  · rw [if_neg hac] at hx
    rw [List.mem_singleton] at hx
    subst hx
    exact Or.inr ⟨ha, hac⟩

theorem tame_amp : ∀ x ∈ "&amp;".toList, x ≠ '<' ∧ x ≠ '>' ∧ x ≠ '"' ∧ x ≠ '\'' := by
  decide

theorem tame_lt : ∀ x ∈ "&lt;".toList, x ≠ '<' ∧ x ≠ '>' ∧ x ≠ '"' ∧ x ≠ '\'' := by
  decide

theorem tame_gt : ∀ x ∈ "&gt;".toList, x ≠ '<' ∧ x ≠ '>' ∧ x ≠ '"' ∧ x ≠ '\'' := by
  decide

theorem tame_quot : ∀ x ∈ "&quot;".toList, x ≠ '<' ∧ x ≠ '>' ∧ x ≠ '"' ∧ x ≠ '\'' := by
  decide

theorem tame_apos : ∀ x ∈ "&#039;".toList, x ≠ '<' ∧ x ≠ '>' ∧ x ≠ '"' ∧ x ≠ '\'' := by
  decide

theorem escapeHtmlChars_no_markup (s : List Char) :
    ∀ x ∈ escapeHtmlChars s, x ≠ '<' ∧ x ≠ '>' ∧ x ≠ '"' ∧ x ≠ '\'' := by
  intro x h
  unfold escapeHtmlChars at h
  rcases mem_replAll h with h5 | ⟨h, hq⟩
  · exact tame_apos x h5
  rcases mem_replAll h with h4 | ⟨h, hdq⟩
  · exact tame_quot x h4
  rcases mem_replAll h with h3 | ⟨h, hgt⟩
  · exact tame_gt x h3
  rcases mem_replAll h with h2 | ⟨h, hlt⟩
  · exact tame_lt x h2
  rcases mem_replAll h with h1 | ⟨h, hamp⟩
  · exact tame_amp x h1
  exact ⟨hlt, hgt, hdq, hq⟩

theorem escapeHtmlChars_eq_flatMap (s : List Char) :
    escapeHtmlChars s = s.flatMap htmlEntity := by
  unfold escapeHtmlChars replAll
  rw [List.flatMap_assoc, List.flatMap_assoc, List.flatMap_assoc,
    List.flatMap_assoc]
  have hfun : ∀ a : Char,
      ((if a = '&' then "&amp;".toList else [a]).flatMap fun x =>
        (if x = '<' then "&lt;".toList else [x]).flatMap fun x =>
          (if x = '>' then "&gt;".toList else [x]).flatMap fun x =>
            (if x = '"' then "&quot;".toList else [x]).flatMap fun x =>
              if x = '\'' then "&#039;".toList else [x]) =
        htmlEntity a := by
    intro a
    by_cases h1 : a = '&'
    · subst h1; decide
    by_cases h2 : a = '<'
    · subst h2; decide
    by_cases h3 : a = '>'
    · subst h3; decide
    by_cases h4 : a = '"'
    · subst h4; decide
    by_cases h5 : a = '\''
    · subst h5; decide
    simp [htmlEntity, if_neg h1, if_neg h2, if_neg h3, if_neg h4, if_neg h5]
  exact List.flatMap_congr (fun a _ => hfun a)

theorem find?_key_eq {α : Type} (key : α → Nat) {l : List α} {m : α}
    (hnd : (l.map key).Nodup) (hm : m ∈ l) :
    l.find? (fun x => key x == key m) = some m := by
  induction l with
  | nil => cases hm
  | cons a t ih =>
      rw [List.map_cons, List.nodup_cons] at hnd
      rcases List.mem_cons.mp hm with rfl | hmt
      · rw [List.find?_cons_of_pos _ (by simp)]
      · have hkey : key a ≠ key m := by
          intro hk
          exact hnd.1 (hk ▸ List.mem_map_of_mem key hmt)
        rw [List.find?_cons_of_neg _ (by simpa using hkey)]
        exact ih hnd.2 hmt

theorem find?_append_of_none {α : Type} {l1 : List α} (l2 : List α)
    (p : α → Bool) (h : l1.find? p = none) :
    (l1 ++ l2).find? p = l2.find? p := by
  induction l1 with
  | nil => simp
  | cons a t ih =>
      simp only [List.find?_cons] at h ⊢
      cases hpa : p a with
      | true => simp [hpa] at h
      | false =>
          simp only [List.cons_append, List.find?_cons, hpa] at h ⊢
          exact ih h

theorem inv_archiveStep {st st' : LifecycleState} {id t : Nat}
    (hinv : LifecycleInv st) (h : archiveStep st id t = some st') :
    LifecycleInv st' := by
  obtain ⟨hA, hO, hI, hD, hB⟩ := hinv
  unfold archiveStep at h
  cases hfind : st.active.find? (fun m => m.id == id) with
  | none => rw [hfind] at h; cases h
  | some m =>
      rw [hfind] at h
      have hm : m ∈ st.active := List.mem_of_find?_eq_some hfind
      have hmid : m.id = id := by simpa using List.find?_some hfind
      cases h
      refine ⟨?_, ?_, ?_, ?_, ?_⟩
      · exact List.Nodup.sublist
          (((List.filter_sublist st.active).map Msg.id)) hA
      · show ((st.archive ++ [archiveRow m st.nextArchiveId t]).map
          ArchivedMsg.original_id).Nodup
        rw [List.map_append, List.nodup_append]
        refine ⟨hO, by simp, ?_⟩
        intro x hx hx2
        simp [archiveRow] at hx2
        subst hx2
        exact hD m.id (List.mem_map_of_mem Msg.id hm) hx
      · show ((st.archive ++ [archiveRow m st.nextArchiveId t]).map
          ArchivedMsg.id).Nodup
        rw [List.map_append, List.nodup_append]
        refine ⟨hI, by simp, ?_⟩
        intro x hx hx2
        simp [archiveRow] at hx2
        subst hx2
        rw [List.mem_map] at hx
        obtain ⟨a, ha, haid⟩ := hx
        exact absurd haid (Nat.ne_of_lt (hB a ha))
      · intro i hi
        show i ∉ (st.archive ++ [archiveRow m st.nextArchiveId t]).map
          ArchivedMsg.original_id
        simp only [activeIds, List.mem_map] at hi
        obtain ⟨x, hx, hxid⟩ := hi
        rw [List.mem_filter] at hx
        have hxne : x.id ≠ id := by simpa using hx.2
        rw [List.map_append, List.mem_append]
        rintro (hins | hnew)
        · exact hD i (hxid ▸ List.mem_map_of_mem Msg.id hx.1) hins
        · simp [archiveRow] at hnew
          exact hxne (by rw [hxid, hnew, hmid])
      · intro a ha
        show a.id < st.nextArchiveId + 1
        rcases List.mem_append.mp ha with hold | hnew
        · exact Nat.lt_succ_of_lt (hB a hold)
        · rw [List.mem_singleton] at hnew
          subst hnew
          exact Nat.lt_succ_self _

theorem inv_restoreStep {st st' : LifecycleState} {oid : Nat}
    (hinv : LifecycleInv st) (h : restoreStep st oid = some st') :
    LifecycleInv st' := by
  obtain ⟨hA, hO, hI, hD, hB⟩ := hinv
  unfold restoreStep at h
  cases hfind : st.archive.find? (fun a => a.original_id == oid) with
  | none => rw [hfind] at h; cases h
  | some a =>
      rw [hfind] at h
      have ha : a ∈ st.archive := List.mem_of_find?_eq_some hfind
      have haid : a.original_id = oid := by simpa using List.find?_some hfind
      have hoid : oid ∉ activeIds st := by
        intro hmem
        exact hD oid hmem (haid ▸ List.mem_map_of_mem ArchivedMsg.original_id ha)
      cases h
      refine ⟨?_, ?_, ?_, ?_, ?_⟩
      · show ((st.active ++ [restoredMsg a]).map Msg.id).Nodup
        rw [List.map_append, List.nodup_append]
        refine ⟨hA, by simp, ?_⟩
        intro x hx hx2
        simp [restoredMsg] at hx2
        subst hx2
        exact hoid (haid ▸ hx)
      · exact List.Nodup.sublist
          ((List.filter_sublist st.archive).map ArchivedMsg.original_id) hO
      · exact List.Nodup.sublist
          ((List.filter_sublist st.archive).map ArchivedMsg.id) hI
      · intro i hi
        show i ∉ (st.archive.filter (fun x => x.original_id != oid)).map
          ArchivedMsg.original_id
        rw [List.mem_map]
        rintro ⟨x, hx, hxid⟩
        rw [List.mem_filter] at hx
        have hxne : x.original_id ≠ oid := by simpa using hx.2
        simp only [activeIds, List.map_append, List.mem_append] at hi
        rcases hi with hiold | hinew
        · exact hD i hiold (hxid ▸ List.mem_map_of_mem ArchivedMsg.original_id hx.1)
        · simp [restoredMsg] at hinew
          exact hxne (by rw [hxid, hinew, haid])
      · intro x hx
        exact hB x (List.mem_of_mem_filter hx)

theorem inv_permDeleteStep {st st' : LifecycleState} {aid : Nat}
    (hinv : LifecycleInv st) (h : permDeleteStep st aid = some st') :
    LifecycleInv st' := by
  obtain ⟨hA, hO, hI, hD, hB⟩ := hinv
  unfold permDeleteStep at h
  by_cases hc : st.archive.any (fun a => a.id == aid)
  · rw [if_pos hc] at h
    cases h
    refine ⟨hA, ?_, ?_, ?_, ?_⟩
    · exact List.Nodup.sublist
        ((List.filter_sublist st.archive).map ArchivedMsg.original_id) hO
    · exact List.Nodup.sublist
        ((List.filter_sublist st.archive).map ArchivedMsg.id) hI
    · intro i hi
      show i ∉ (st.archive.filter (fun a => a.id != aid)).map
        ArchivedMsg.original_id
      rw [List.mem_map]
      rintro ⟨x, hx, hxid⟩
      exact hD i hi (hxid ▸ List.mem_map_of_mem ArchivedMsg.original_id
        (List.mem_of_mem_filter hx))
    · intro x hx
      exact hB x (List.mem_of_mem_filter hx)
  · rw [if_neg hc] at h
    cases h

theorem inv_applyOp (op : LifecycleOp) {st : LifecycleState}
    (hinv : LifecycleInv st) : LifecycleInv (applyOp op st) := by
  cases op with
  | archive id t =>
      show LifecycleInv ((archiveStep st id t).getD st)
      cases h : archiveStep st id t with
      | none => simpa using hinv
      | some st' => simpa using inv_archiveStep hinv h
  | restore oid =>
      show LifecycleInv ((restoreStep st oid).getD st)
      cases h : restoreStep st oid with
      | none => simpa using hinv
      | some st' => simpa using inv_restoreStep hinv h
  | permDelete aid =>
      show LifecycleInv ((permDeleteStep st aid).getD st)
      cases h : permDeleteStep st aid with
      | none => simpa using hinv
      | some st' => simpa using inv_permDeleteStep hinv h

theorem inv_runOps (ops : List LifecycleOp) (st : LifecycleState)
    (hinv : LifecycleInv st) : LifecycleInv (runOps ops st) := by
  induction ops generalizing st with
  | nil => exact hinv
  | cons op rest ih => exact ih _ (inv_applyOp op hinv)

theorem archive_then_restore {st : LifecycleState} {m : Msg}
    (hinv : LifecycleInv st) (hm : m ∈ st.active) (t : Nat) :
    ∃ st', archiveStep st m.id t = some st' ∧
      (∃ a ∈ st'.archive, a.original_id = m.id ∧ a.payload = m.payload) ∧
      ∃ st'', restoreStep st' m.id = some st'' ∧
        ∃ m' ∈ st''.active, m'.payload = m.payload ∧ m'.id = m.id := by
  obtain ⟨hA, hO, hI, hD, hB⟩ := hinv
  have hfind : st.active.find? (fun x => x.id == m.id) = some m :=
    find?_key_eq Msg.id hA hm
  refine ⟨⟨st.active.filter (fun x => x.id != m.id),
    st.archive ++ [archiveRow m st.nextArchiveId t],
    st.nextArchiveId + 1⟩, ?_, ?_, ?_⟩
  · unfold archiveStep
    rw [hfind]
  · exact ⟨archiveRow m st.nextArchiveId t,
      List.mem_append_right _ (List.mem_singleton.mpr rfl), rfl, rfl⟩
  · have hnone : st.archive.find? (fun a => a.original_id == m.id) = none := by
      rw [List.find?_eq_none]
      intro a ha
      have : m.id ∉ archiveOrigIds st :=
        hD m.id (List.mem_map_of_mem Msg.id hm)
      simp only [bne_iff_ne, ne_eq, beq_iff_eq]
      intro hcontra
      exact this (hcontra ▸ List.mem_map_of_mem ArchivedMsg.original_id ha)
    refine ⟨⟨st.active.filter (fun x => x.id != m.id) ++
      [restoredMsg (archiveRow m st.nextArchiveId t)],
      (st.archive ++ [archiveRow m st.nextArchiveId t]).filter
        (fun x => x.original_id != m.id),
      st.nextArchiveId + 1⟩, ?_, ?_⟩
    · unfold restoreStep
      rw [show ((⟨st.active.filter (fun x => x.id != m.id),
        st.archive ++ [archiveRow m st.nextArchiveId t],
        st.nextArchiveId + 1⟩ : LifecycleState)).archive =
          st.archive ++ [archiveRow m st.nextArchiveId t] from rfl,
        find?_append_of_none _ _ hnone]
      simp [archiveRow]
    · exact ⟨restoredMsg (archiveRow m st.nextArchiveId t),
        List.mem_append_right _ (List.mem_singleton.mpr rfl), rfl, rfl⟩

/-! ## Claim theorems -/

/-- C9: for every input string, and for null/undefined input, `escapeHtml`
returns a string containing no raw markup-significant character — no `<`,
`>`, `"` or single quote; null, undefined and empty inputs yield the empty
string; and on any string the output is exactly the character-by-character
entity substitution (so `&` and every other markup character of the input is
replaced by its HTML entity). -/
theorem escapeHtml_output_safe (t : Option String) (s : String) :
    ('<' ∉ (escapeHtml t).data ∧ '>' ∉ (escapeHtml t).data ∧
     '"' ∉ (escapeHtml t).data ∧ '\'' ∉ (escapeHtml t).data) ∧
    escapeHtml none = "" ∧ escapeHtml (some "") = "" ∧
    (escapeHtml (some s)).data = s.data.flatMap htmlEntity := by
  refine ⟨?_, rfl, by simp [escapeHtml], ?_⟩
  · have hSafe : ∀ u : List Char, '<' ∉ escapeHtmlChars u ∧
        '>' ∉ escapeHtmlChars u ∧ '"' ∉ escapeHtmlChars u ∧
        '\'' ∉ escapeHtmlChars u := by
      intro u
      refine ⟨fun h => ?_, fun h => ?_, fun h => ?_, fun h => ?_⟩
      · exact (escapeHtmlChars_no_markup u _ h).1 rfl
      · exact (escapeHtmlChars_no_markup u _ h).2.1 rfl
      · exact (escapeHtmlChars_no_markup u _ h).2.2.1 rfl
      · exact (escapeHtmlChars_no_markup u _ h).2.2.2 rfl
    cases t with
    | none => simp [escapeHtml]
    | some u =>
        by_cases hu : u = ""
        · subst hu; simp [escapeHtml]
        · show '<' ∉ (escapeHtml (some u)).data ∧ _
          simp only [escapeHtml, if_neg hu]
          exact hSafe u.data
  · by_cases hs : s = ""
    · subst hs; rfl
    · show (escapeHtml (some s)).data = _
      simp only [escapeHtml, if_neg hs]
      exact escapeHtmlChars_eq_flatMap s.data

/-- C10: the shared `handleResponse` raises exactly on failure — it rejects
with an `ApiError` carrying the response's status iff the response is not
ok, a 401 gets the fixed message "Unauthorized", and every ok response with
an empty or parsable body resolves: empty body to the empty object, a
parsable body to the parsed value. -/
theorem handleResponse_raises_iff_not_ok {T : Type} (emptyObj : T)
    (parse : String → Option T) (r : HttpResponse) (v : T) :
    (throwsApiError (handleResponse emptyObj parse r) = !r.ok) ∧
    (apiErrorStatus (handleResponse emptyObj parse r) =
      if r.ok then none else some r.status) ∧
    (r.ok = false → r.status = 401 →
      handleResponse emptyObj parse r = .error (.api 401 "Unauthorized")) ∧
    (r.ok = true → r.body = "" →
      handleResponse emptyObj parse r = .ok emptyObj) ∧
    (r.ok = true → r.body ≠ "" → parse r.body = some v →
      handleResponse emptyObj parse r = .ok v) := by
  unfold handleResponse
  rcases r with ⟨ok, status, stext, body⟩
  cases ok with
  | true =>
      simp only [if_pos rfl]
      by_cases hb : body = ""
      · simp [hb, throwsApiError, apiErrorStatus]
      · simp only [if_neg hb]
        cases hp : parse body with
        | none =>
            refine ⟨rfl, rfl, by simp, by simp [hb], ?_⟩
            intro _ _ hv
            cases hv
        | some w =>
            refine ⟨rfl, rfl, by simp, by simp [hb], ?_⟩
            intro _ _ hv
            cases hv
            simp
  | false =>
      simp only [Bool.false_eq_true, if_false]
      by_cases hs : status = 401
      · subst hs
        simp [throwsApiError, apiErrorStatus]
      · refine ⟨by simp [if_neg hs, throwsApiError], ?_, ?_, by simp, by simp⟩
        · simp [if_neg hs, apiErrorStatus]
        · intro _ hcontra
          exact absurd hcontra hs

/-- Witness for C10 at concrete responses: a 401 rejection, an empty-body
success, and a parsed-body success. -/
theorem handleResponse_raises_iff_not_ok_witness :
    handleResponse 0 (fun s => if s = "7" then some 7 else none)
      ⟨false, 401, "Unauthorized", ""⟩ = .error (.api 401 "Unauthorized") ∧
    handleResponse 0 (fun s => if s = "7" then some 7 else none)
      ⟨true, 200, "OK", ""⟩ = .ok 0 ∧
    handleResponse 0 (fun s => if s = "7" then some 7 else none)
      ⟨true, 200, "OK", "7"⟩ = .ok 7 := by
  refine ⟨?_, ?_, ?_⟩
  · exact (handleResponse_raises_iff_not_ok 0 _ _ 7).2.2.1 rfl rfl
  · exact (handleResponse_raises_iff_not_ok 0 _ _ 7).2.2.2.1 rfl rfl
  · exact (handleResponse_raises_iff_not_ok 0 _ _ 7).2.2.2.2 rfl
      (by decide) (by decide)

/-- C3, counterexample: when the check endpoint reports "not authenticated"
as its spec-mandated 200-with-body-`false` response, `api.admin.checkAuth`
still returns `true`, because it returns `res.ok` and never reads the body
boolean. -/
theorem checkAuth_not_body_cx :
    checkAuthClient (checkEndpointResponse false) = true ∧
    jsonBodyBool (checkEndpointResponse false).body = false := by
  constructor
  · rfl
  · decide

/-- C3, amended: the check endpoint carries the outcome as a 200 status with
a `true`/`false` boolean body (never an error status for "not
authenticated"); `api.admin.checkAuth` returns true exactly when the
response status is ok — for every boolean-body response of this endpoint it
therefore returns `true` regardless of the body — while the page-level
`checkAdminAuth` flag is the one that equals the body boolean. -/
theorem checkAuth_returns_res_ok (authed : Bool) :
    (checkEndpointResponse authed).ok = true ∧
    (checkEndpointResponse authed).status = 200 ∧
    jsonBodyBool (checkEndpointResponse authed).body = authed ∧
    checkAuthClient (checkEndpointResponse authed) =
      (checkEndpointResponse authed).ok ∧
    checkAdminAuthFlag (checkEndpointResponse authed) = authed := by
  cases authed <;>
    exact ⟨rfl, rfl, by decide, rfl, by decide⟩

/-- C4, counterexample: `applyCrop` asks the cropper for a fixed 1920×1080
canvas, so an 800×600 selection — whose longer edge is at or below 1920 and
which the spec says must keep its original dimensions — comes out as
1920×1080: the width grows from 800 to 1920, an upscale. -/
theorem applyCrop_upscales_cx :
    offersApplyCropCanvas 800 600 = (1920, 1080) ∧
    specResizePolicy 800 600 = (800, 600) ∧
    offersApplyCropCanvas 800 600 ≠ specResizePolicy 800 600 ∧
    800 < (offersApplyCropCanvas 800 600).1 := by
  refine ⟨rfl, by decide, by decide, by decide⟩

/-- C4, amended: both crop pipelines export the crop selection at the fixed
canvas size 1920×1080 (16:9), independent of the source image's pixel
dimensions — small selections are upscaled to it, large ones downscaled, and
original dimensions are never preserved unless they already are 1920×1080. -/
theorem applyCrop_fixed_1920x1080 (w h : Nat) :
    offersApplyCropCanvas w h = (1920, 1080) ∧
    blogApplyCropCanvas w h = (1920, 1080) :=
  ⟨rfl, rfl⟩

/-- C7: both `applyCrop` pipelines hand `canvas.toBlob` the MIME type
`image/jpeg` and the same fixed quality constant 0.95, which lies in the
0.85–0.95 range, independent of the uploaded file's format. -/
theorem cropExport_canonical_jpeg :
    offersCropBlobExport.mime = "image/jpeg" ∧
    blogCropBlobExport.mime = "image/jpeg" ∧
    blogCropBlobExport = offersCropBlobExport ∧
    (85 : ℚ) / 100 ≤ offersCropBlobExport.quality ∧
    offersCropBlobExport.quality ≤ (95 : ℚ) / 100 := by
  refine ⟨rfl, rfl, rfl, ?_, ?_⟩ <;> norm_num [offersCropBlobExport]

/-- C8: logout is idempotent and total — the modelled server operation
deletes the row when present, answers 200 for every token state (valid,
revoked, expired or absent), and running it twice equals running it once;
the client-side `api.admin.logout` resolves for every response status since
it never inspects the response. -/
theorem logout_idempotent_total (store : List AdminSession) (tok : String)
    (r : HttpResponse) :
    logoutOp (logoutOp store tok).1 tok = logoutOp store tok ∧
    (logoutOp store tok).2 = 200 ∧
    logoutClient r = .ok () := by
  refine ⟨?_, rfl, rfl⟩
  unfold logoutOp
  simp [List.filter_filter]

/-- C6, counterexample: an offer update submitted from the admin form with
no cropped blob and no chosen file carries neither an `image` entry nor a
`keep_existing_image` entry — the keep-existing signal claimed by the spec
is simply absent from the request. -/
theorem saveOffer_no_keep_flag_cx :
    "keep_existing_image" ∉
      formKeys (saveOfferBody ⟨"1", "Ponuka", "ponuka", "", "", "", "", false⟩
        false) ∧
    "image" ∉
      formKeys (saveOfferBody ⟨"1", "Ponuka", "ponuka", "", "", "", "", false⟩
        false) := by
  constructor <;> decide

/-- C6, amended: an offer update submitted from the admin form without new
image bytes simply omits the `image` field (absence of the field is what
makes the backend keep the stored asset) and never carries a
`keep_existing_image` entry; the `keep_existing_image` flag is appended only
on `api.admin.updateOffer`'s plain-object path, serialised from
`data.keep_existing_image`. -/
theorem updateOffer_keep_existing_signal (fd : OfferFormData) (b : Bool)
    (d : UpdateOfferData) :
    "keep_existing_image" ∉ formKeys (saveOfferBody fd b) ∧
    (fd.hasImageFile = false → "image" ∉ formKeys (saveOfferBody fd false)) ∧
    ("keep_existing_image",
      FormVal.text (if d.keep_existing_image then "true" else "false")) ∈
      updateOfferPlainBody d := by
  refine ⟨?_, ?_, ?_⟩
  · unfold saveOfferBody formKeys
    split_ifs <;> simp
  · intro hni
    unfold saveOfferBody formKeys
    split_ifs <;> simp_all
  · unfold updateOfferPlainBody
    simp only [List.mem_append]
    refine Or.inl (Or.inr ?_)
    simp

/-- Witness for C6's amended theorem at a concrete form state. -/
theorem updateOffer_keep_existing_signal_witness :
    "keep_existing_image" ∉
      formKeys (saveOfferBody ⟨"2", "T", "t", "d", "", "", "", false⟩ false) ∧
    "image" ∉
      formKeys (saveOfferBody ⟨"2", "T", "t", "d", "", "", "", false⟩ false) ∧
    ("keep_existing_image", FormVal.text "true") ∈
      updateOfferPlainBody ⟨"T", "t", some "d", none, true, false⟩ := by
  obtain ⟨h1, h2, h3⟩ := updateOffer_keep_existing_signal
    ⟨"2", "T", "t", "d", "", "", "", false⟩ false
    ⟨"T", "t", some "d", none, true, false⟩
  exact ⟨h1, h2 rfl, h3⟩

/-- C1: the legacy delete endpoint is an alias for archive — for every id
the dispatched effect of `api.admin.deleteMessage(id)` equals that of
`api.admin.archiveMessage(id)` — and archiving an existing message never
destroys it: the message lands in the archive under `original_id = id` with
its payload intact and a subsequent restore brings the payload back into the
active store. -/
theorem deleteMessage_aliases_archive :
    (∀ (id t : Nat) (st : LifecycleState),
      serverDispatch t (clientDeleteMessage id) st =
        serverDispatch t (clientArchiveMessage id) st) ∧
    (∀ (st : LifecycleState) (m : Msg) (t : Nat),
      LifecycleInv st → m ∈ st.active →
      ∃ st', serverDispatch t (clientDeleteMessage m.id) st = st' ∧
        archiveStep st m.id t = some st' ∧
        (∃ a ∈ st'.archive, a.original_id = m.id ∧ a.payload = m.payload) ∧
        ∃ st'', restoreStep st' m.id = some st'' ∧
          ∃ m' ∈ st''.active, m'.payload = m.payload) := by
  constructor
  · intro id t st
    rfl
  · intro st m t hinv hm
    obtain ⟨st', hstep, hrow, st'', hres, m', hm', hpay, _⟩ :=
      archive_then_restore hinv hm t
    refine ⟨st', ?_, hstep, hrow, st'', hres, m', hm', hpay⟩
    show (archiveStep st m.id t).getD st = st'
    rw [hstep]
    rfl

/-- Witness for C1 at a concrete two-message state. -/
theorem deleteMessage_aliases_archive_witness :
    LifecycleInv ⟨[⟨1, "Jana", "jana@x.sk", none, none, "Ahoj", 10⟩,
                   ⟨2, "Peter", "p@x.sk", none, none, "Dobry den", 11⟩],
                  [], 1⟩ ∧
    (⟨1, "Jana", "jana@x.sk", none, none, "Ahoj", 10⟩ : Msg) ∈
      (⟨[⟨1, "Jana", "jana@x.sk", none, none, "Ahoj", 10⟩,
         ⟨2, "Peter", "p@x.sk", none, none, "Dobry den", 11⟩],
        [], 1⟩ : LifecycleState).active ∧
    ∃ st', serverDispatch 20 (clientDeleteMessage 1)
        ⟨[⟨1, "Jana", "jana@x.sk", none, none, "Ahoj", 10⟩,
          ⟨2, "Peter", "p@x.sk", none, none, "Dobry den", 11⟩],
         [], 1⟩ = st' ∧
      archiveStep ⟨[⟨1, "Jana", "jana@x.sk", none, none, "Ahoj", 10⟩,
          ⟨2, "Peter", "p@x.sk", none, none, "Dobry den", 11⟩],
         [], 1⟩ 1 20 = some st' ∧
      (∃ a ∈ st'.archive, a.original_id = 1 ∧
        a.payload = Msg.payload ⟨1, "Jana", "jana@x.sk", none, none, "Ahoj", 10⟩) ∧
      ∃ st'', restoreStep st' 1 = some st'' ∧
        ∃ m' ∈ st''.active,
          m'.payload = Msg.payload ⟨1, "Jana", "jana@x.sk", none, none, "Ahoj", 10⟩ := by
  refine ⟨by decide, by decide, ?_⟩
  exact deleteMessage_aliases_archive.2 _
    ⟨1, "Jana", "jana@x.sk", none, none, "Ahoj", 10⟩ 20 (by decide) (by decide)

/-- C2: starting from a state whose messages live only in the active table
(with distinct ids), every sequence of archive/restore/permanentDelete steps
keeps the storage invariant — in particular no logical message id is ever
present in both the active and the archive table — and each archive step is
all-or-nothing: either the state is left untouched (NotFound) or the active
delete and the archive insert happen together in one transition. -/
theorem lifecycle_exactly_one :
    (∀ (ops : List LifecycleOp) (init : LifecycleState),
      (activeIds init).Nodup → init.archive = [] →
      LifecycleInv (runOps ops init) ∧
      ∀ i ∈ activeIds (runOps ops init),
        i ∉ archiveOrigIds (runOps ops init)) ∧
    (∀ (st : LifecycleState) (id t : Nat),
      applyOp (.archive id t) st = st ∨
      ∃ m ∈ st.active, m.id = id ∧
        applyOp (.archive id t) st =
          ⟨st.active.filter (fun x => x.id != id),
           st.archive ++ [archiveRow m st.nextArchiveId t],
           st.nextArchiveId + 1⟩) := by
  constructor
  · intro ops init hnd harch
    have hinv : LifecycleInv init := by
      refine ⟨hnd, ?_, ?_, ?_, ?_⟩ <;>
        simp [archiveOrigIds, archiveIds, harch]
    have hrun := inv_runOps ops init hinv
    exact ⟨hrun, hrun.2.2.2.1⟩
  · intro st id t
    cases hfind : st.active.find? (fun m => m.id == id) with
    | none =>
        left
        show (archiveStep st id t).getD st = st
        unfold archiveStep
        rw [hfind]
        rfl
    | some m =>
        right
        refine ⟨m, List.mem_of_find?_eq_some hfind,
          by simpa using List.find?_some hfind, ?_⟩
        show (archiveStep st id t).getD st = _
        unfold archiveStep
        rw [hfind]
        rfl

/-- Witness for C2: a concrete run archiving, restoring, re-archiving and
permanently deleting messages keeps the invariant. -/
theorem lifecycle_exactly_one_witness :
    (activeIds ⟨[⟨1, "A", "a@x", none, none, "m1", 1⟩,
                 ⟨2, "B", "b@x", none, none, "m2", 2⟩], [], 1⟩).Nodup ∧
    (⟨[⟨1, "A", "a@x", none, none, "m1", 1⟩,
       ⟨2, "B", "b@x", none, none, "m2", 2⟩], [], 1⟩ :
        LifecycleState).archive = [] ∧
    (LifecycleInv (runOps [.archive 1 5, .restore 1, .archive 1 6,
        .archive 2 7, .permDelete 2]
      ⟨[⟨1, "A", "a@x", none, none, "m1", 1⟩,
        ⟨2, "B", "b@x", none, none, "m2", 2⟩], [], 1⟩) ∧
     ∀ i ∈ activeIds (runOps [.archive 1 5, .restore 1, .archive 1 6,
        .archive 2 7, .permDelete 2]
      ⟨[⟨1, "A", "a@x", none, none, "m1", 1⟩,
        ⟨2, "B", "b@x", none, none, "m2", 2⟩], [], 1⟩),
       i ∉ archiveOrigIds (runOps [.archive 1 5, .restore 1, .archive 1 6,
        .archive 2 7, .permDelete 2]
      ⟨[⟨1, "A", "a@x", none, none, "m1", 1⟩,
        ⟨2, "B", "b@x", none, none, "m2", 2⟩], [], 1⟩)) := by
  refine ⟨by decide, rfl, ?_⟩
  exact lifecycle_exactly_one.1 _ _ (by decide) rfl

/-- C5: in the archived-message card, the restore button is invoked with
`msg.original_id` while the permanent-delete button is invoked with the
archive-local `msg.id`; on the storage side, restore succeeds exactly when
an archive row with that `original_id` exists — reinserting that row's
original field values into the active store and deleting it from the
archive — while permanentDelete is keyed by the archive-local id. -/
theorem restore_by_original_id_permDelete_by_id (fmt : Nat → String)
    (msg : ArchivedMsg) :
    (archCardLit7, msg.original_id) ∈
      pairedArgs (createArchivedMessageCard fmt msg) ∧
    (archCardLit8, msg.id) ∈
      pairedArgs (createArchivedMessageCard fmt msg) ∧
    (∀ (st : LifecycleState) (oid : Nat),
      (restoreStep st oid).isSome = true ↔
        ∃ a ∈ st.archive, a.original_id = oid) ∧
    (∀ (st : LifecycleState) (aid : Nat),
      (permDeleteStep st aid).isSome = true ↔
        ∃ a ∈ st.archive, a.id = aid) ∧
    (∀ (st st' : LifecycleState) (oid : Nat),
      restoreStep st oid = some st' →
      st'.archive = st.archive.filter (fun x => x.original_id != oid) ∧
      ∃ a, st.archive.find? (fun x => x.original_id == oid) = some a ∧
        a.original_id = oid ∧
        st'.active = st.active ++ [restoredMsg a]) := by
  have hpairs : pairedArgs (createArchivedMessageCard fmt msg) =
      [(archCardLit7, msg.original_id), (archCardLit8, msg.id)] := by
    unfold createArchivedMessageCard archPhoneBlock
    cases msg.phone with
    | none => simp [pairedArgs]
    | some p =>
        by_cases hp : p = "" <;>
          simp [hp, pairedArgs]
  refine ⟨by rw [hpairs]; simp, by rw [hpairs]; simp, ?_, ?_, ?_⟩
  · intro st oid
    unfold restoreStep
    cases hfind : st.archive.find? (fun a => a.original_id == oid) with
    | none =>
        simp only [Option.isSome_none]
        rw [List.find?_eq_none] at hfind
        constructor
        · intro h
          cases h
        · rintro ⟨a, ha, haid⟩
          exact absurd (by simpa using haid) (hfind a ha)
    | some a =>
        simp only [Option.isSome_some, true_iff]
        exact ⟨a, List.mem_of_find?_eq_some hfind,
          by simpa using List.find?_some hfind⟩
  · intro st aid
    unfold permDeleteStep
    by_cases hc : st.archive.any (fun a => a.id == aid)
    · rw [if_pos hc]
      simp only [Option.isSome_some, true_iff]
      rw [List.any_eq_true] at hc
      obtain ⟨a, ha, haid⟩ := hc
      exact ⟨a, ha, by simpa using haid⟩
    · rw [if_neg hc]
      simp only [Option.isSome_none]
      constructor
      · intro h
        cases h
      · rintro ⟨a, ha, haid⟩
        exact (hc (List.any_eq_true.mpr ⟨a, ha, by simpa using haid⟩)).elim
  · intro st st' oid h
    unfold restoreStep at h
    cases hfind : st.archive.find? (fun a => a.original_id == oid) with
    | none => rw [hfind] at h; cases h
    | some a =>
        rw [hfind] at h
        cases h
        refine ⟨rfl, ⟨a, rfl, ?_, rfl⟩⟩
        simpa using List.find?_some hfind

/-- Witness for C5 at a concrete archived message and archive state. -/
theorem restore_by_original_id_permDelete_by_id_witness :
    (archCardLit7, 3) ∈ pairedArgs (createArchivedMessageCard (fun _ => "d")
      ⟨5, 3, "Jana", "jana@x.sk", some "0900", some "Sub", "Hello", 1, 2⟩) ∧
    (archCardLit8, 5) ∈ pairedArgs (createArchivedMessageCard (fun _ => "d")
      ⟨5, 3, "Jana", "jana@x.sk", some "0900", some "Sub", "Hello", 1, 2⟩) ∧
    ((restoreStep ⟨[],
        [⟨5, 3, "Jana", "jana@x.sk", some "0900", some "Sub", "Hello", 1, 2⟩],
        6⟩ 3).isSome = true ↔
      ∃ a ∈ [(⟨5, 3, "Jana", "jana@x.sk", some "0900", some "Sub", "Hello", 1,
        2⟩ : ArchivedMsg)], a.original_id = 3) ∧
    ((⟨[restoredMsg ⟨5, 3, "Jana", "jana@x.sk", some "0900", some "Sub",
        "Hello", 1, 2⟩], [], 6⟩ : LifecycleState).archive =
      List.filter (fun x => x.original_id != 3)
        [⟨5, 3, "Jana", "jana@x.sk", some "0900", some "Sub", "Hello", 1, 2⟩] ∧
     ∃ a, List.find? (fun x => x.original_id == 3)
        [(⟨5, 3, "Jana", "jana@x.sk", some "0900", some "Sub", "Hello", 1,
          2⟩ : ArchivedMsg)] = some a ∧
       a.original_id = 3 ∧
       (⟨[restoredMsg ⟨5, 3, "Jana", "jana@x.sk", some "0900", some "Sub",
          "Hello", 1, 2⟩], [], 6⟩ : LifecycleState).active =
         [] ++ [restoredMsg a]) := by
  obtain ⟨h1, h2, h3, _, h5⟩ := restore_by_original_id_permDelete_by_id
    (fun _ => "d")
    ⟨5, 3, "Jana", "jana@x.sk", some "0900", some "Sub", "Hello", 1, 2⟩
  refine ⟨h1, h2, h3 _ 3, ?_⟩
  exact h5 ⟨[], [⟨5, 3, "Jana", "jana@x.sk", some "0900", some "Sub", "Hello",
      1, 2⟩], 6⟩ ⟨[restoredMsg ⟨5, 3, "Jana", "jana@x.sk", some "0900",
      some "Sub", "Hello", 1, 2⟩], [], 6⟩ 3 (by decide)
